/-
Verification of `zipline/modelling/filter.py` (Filter algebra and
composition engine).

We shallowly embed the module's data model and operations:

* 2-D panels (rows = time periods, columns = entities) are `List (List α)`;
  boolean masks are `List (List Bool)`; float64 arrays are
  `List (List (Option ℚ))`, where `none` models the IEEE NaN sentinel
  (a NaN compares false against every bound, and is skipped by the
  NaN-ignoring reductions), and `some q` models an ordinary finite value.
* `NumExprFilter.compute_from_arrays` and
  `SequencedFilter.compute_from_arrays` are parameterized over the
  externally supplied computations they delegate to (the vectorized
  numexpr evaluator, respectively the second filter's own compute): those
  live outside this module.
* machinery of `zipline.modelling.term` (construction hooks) and
  `zipline.modelling.expression` (`build_binary_op`) is not part of this
  module; where a claim depends on it we model it from the specification
  and say so in the corresponding doc comment.
-/
import Mathlib

/-- A value of a float64 panel cell: `none` is the NaN sentinel. -/
abbrev FloatVal := Option ℚ

/-- A 2-D float64 panel (rows = dates, columns = assets). -/
abbrev FloatPanel := List (List FloatVal)

/-- A 2-D boolean panel, used both for masks and for filter results. -/
abbrev BoolPanel := List (List Bool)

/-- A materialized numpy array handed to `compute_from_arrays`: either a
boolean array (a filter's result) or a float64 array (a factor's values). -/
inductive NpArr where
  | bPanel (b : BoolPanel)
  | fPanel (q : FloatPanel)
deriving DecidableEq

/-- Cell lookup in a 2-D panel: row `r`, column `c`. -/
def cell? (xss : List (List α)) (r c : Nat) : Option α :=
  (xss.get? r).bind (fun row => row.get? c)

/-- Elementwise `&` of two same-shape boolean panels (numpy `&`). -/
def andMask (x y : BoolPanel) : BoolPanel :=
  List.zipWith (List.zipWith (· && ·)) x y

theorem get?_zipWith_some (f : α → β → γ) :
    ∀ (as : List α) (bs : List β) (i : Nat) (a : α) (b : β),
      as.get? i = some a → bs.get? i = some b →
      (List.zipWith f as bs).get? i = some (f a b) := by
  intro as
  induction as with
  | nil => intro bs i a b ha; simp at ha
  | cons x xs ih =>
    intro bs i a b ha hb
    cases bs with
    | nil => simp at hb
    | cons y ys =>
      cases i with
      | zero =>
        simp only [List.get?_cons_zero, Option.some.injEq] at ha hb
        subst ha; subst hb
        rfl
      | succ n =>
        simp only [List.get?_cons_succ] at ha hb
        simpa [List.zipWith] using ih ys n a b ha hb

theorem cell?_andMask {x y : BoolPanel} {r c : Nat} {a b : Bool}
    (hx : cell? x r c = some a) (hy : cell? y r c = some b) :
    cell? (andMask x y) r c = some (a && b) := by
  unfold cell? at hx hy ⊢
  cases hrow : x.get? r with
  | none => rw [hrow] at hx; simp at hx
  | some xr =>
    cases hrow' : y.get? r with
    | none => rw [hrow'] at hy; simp at hy
    | some yr =>
      rw [hrow] at hx
      rw [hrow'] at hy
      simp only [Option.some_bind] at hx hy
      rw [andMask, get?_zipWith_some _ x y r xr yr hrow hrow']
      simpa using get?_zipWith_some _ xr yr c a b hx hy

/-- `NumExprFilter.compute_from_arrays` (filter.py lines 127–135).
`numexprEval` parameterizes the external
`NumericalExpression.compute_from_arrays`, which evaluates the bound
expression over the input arrays with numexpr and returns a raw boolean
panel; the filter then returns that raw result `&`-ed with `mask`. -/
def NumExprFilter.compute_from_arrays
    (numexprEval : List NpArr → BoolPanel → BoolPanel)
    (arrays : List NpArr) (mask : BoolPanel) : BoolPanel :=
  andMask (numexprEval arrays mask) mask

/-- `SequencedFilter.compute_from_arrays` (filter.py lines 265–274).
`thenCompute` parameterizes `self._then.compute_from_arrays`.  The first
array is the already-materialized boolean result of the first filter; the
rest are the second filter's own inputs.  `none` models the runtime error
numpy would raise if the first array were not boolean (or were absent). -/
def SequencedFilter.compute_from_arrays
    (thenCompute : List NpArr → BoolPanel → BoolPanel)
    (arrays : List NpArr) (mask : BoolPanel) : Option BoolPanel :=
  match arrays with
  | .bPanel first_result :: then_inputs =>
      some (thenCompute then_inputs (andMask mask first_result))
  | _ => none

/-- C1: for every raw numexpr evaluation, input arrays and mask, the
result of `NumExprFilter.compute_from_arrays` at each in-shape cell is the
logical AND of the raw evaluation with the mask, so wherever the mask is
false the result is false regardless of the raw value. -/
theorem numExprFilter_compute_masks
    (numexprEval : List NpArr → BoolPanel → BoolPanel)
    (arrays : List NpArr) (mask : BoolPanel) (r c : Nat) (b m : Bool)
    (hraw : cell? (numexprEval arrays mask) r c = some b)
    (hmask : cell? mask r c = some m) :
    cell? (NumExprFilter.compute_from_arrays numexprEval arrays mask) r c
        = some (b && m)
    ∧ (m = false →
        cell? (NumExprFilter.compute_from_arrays numexprEval arrays mask) r c
          = some false) := by
  have h := cell?_andMask hraw hmask
  refine ⟨h, fun hm => ?_⟩
  rw [NumExprFilter.compute_from_arrays, h, hm]
  simp

/-- Witness for C1 at a concrete input: a raw evaluation that returns
`true` everywhere is still masked down to `false` where the mask is
false. -/
theorem numExprFilter_compute_masks_witness :
    cell? (NumExprFilter.compute_from_arrays
        (fun _ _ => [[true]]) [] [[false]]) 0 0 = some false :=
  (numExprFilter_compute_masks (fun _ _ => [[true]]) [] [[false]] 0 0
      true false rfl rfl).2 rfl

/-- C2: `SequencedFilter.compute_from_arrays` returns exactly the result
of the second filter's compute applied to the remaining arrays with the
narrowed mask, and the narrowed mask agrees pointwise with
`mask && first_result` at every in-shape cell. -/
theorem sequencedFilter_compute_narrows_mask
    (thenCompute : List NpArr → BoolPanel → BoolPanel)
    (first_result : BoolPanel) (then_inputs : List NpArr)
    (mask : BoolPanel) :
    SequencedFilter.compute_from_arrays thenCompute
        (.bPanel first_result :: then_inputs) mask
      = some (thenCompute then_inputs (andMask mask first_result))
    ∧ ∀ r c m b, cell? mask r c = some m →
        cell? first_result r c = some b →
        cell? (andMask mask first_result) r c = some (m && b) := by
  exact ⟨rfl, fun _ _ _ _ hm hb => cell?_andMask hm hb⟩

/-- Witness for C2 at a concrete input: sequencing an identity second
filter shows the narrowed mask `mask && first_result` pointwise. -/
theorem sequencedFilter_compute_narrows_mask_witness :
    SequencedFilter.compute_from_arrays (fun _ m => m)
        (.bPanel [[true, false]] :: []) [[true, true]]
      = some (andMask [[true, true]] [[true, false]])
    ∧ cell? (andMask [[true, true]] [[true, false]]) 0 1 = some false :=
  ⟨(sequencedFilter_compute_narrows_mask (fun _ m => m)
      [[true, false]] [] [[true, true]]).1,
   (sequencedFilter_compute_narrows_mask (fun _ m => m)
      [[true, false]] [] [[true, true]]).2 0 1 true false rfl rfl⟩

/-- Identity of an interned upstream term (node instance identity: zipline
Terms are interned, so two structurally identical atoms are the same
instance). -/
structure Atom where
  id : Nat
deriving DecidableEq

/-- The `BadPercentileBounds` error (zipline.errors), which reports both
offending bounds. -/
structure BadPercentileBounds where
  min_percentile : ℚ
  max_percentile : ℚ
deriving DecidableEq

/-- `PercentileFilter._validate` (filter.py lines 174–183): raise
`BadPercentileBounds` unless `0.0 <= min_percentile < max_percentile <=
100.0`.  Percentile bounds are modelled as rationals (the float comparisons
involved are exact order comparisons). -/
def PercentileFilter.validate (minp maxp : ℚ) :
    Except BadPercentileBounds Unit :=
  if ¬ (0 ≤ minp ∧ minp < maxp ∧ maxp ≤ 100) then
    .error ⟨minp, maxp⟩
  else
    .ok ()

/-- An interned `PercentileFilter` node: single factor input plus the two
bounds (its static identity). -/
structure PercentileFilterNode where
  factor : Atom
  min_percentile : ℚ
  max_percentile : ℚ
deriving DecidableEq

/-- `PercentileFilter.__new__` (filter.py lines 153–159).  The Term
contract (external, spec §6) invokes `_validate` during construction and
aborts construction when it raises, so a node is produced exactly when
validation passes. -/
def PercentileFilter.new (factor : Atom) (minp maxp : ℚ) :
    Except BadPercentileBounds PercentileFilterNode :=
  (PercentileFilter.validate minp maxp).map (fun _ => ⟨factor, minp, maxp⟩)

/-- `data[~mask.values] = nan`, one row at a time: positions where the mask
is false are overwritten with the NaN sentinel. -/
def maskNanRow (row : List FloatVal) (mrow : List Bool) : List FloatVal :=
  List.zipWith (fun v m => if m then v else none) row mrow

/-- `data[~mask.values] = nan` over the whole panel. -/
def maskNan (data : FloatPanel) (mask : BoolPanel) : FloatPanel :=
  List.zipWith maskNanRow data mask

/-- numpy comparison against a possibly-NaN value: any comparison with NaN
is false. -/
def nanLe : FloatVal → FloatVal → Bool
  | some a, some b => decide (a ≤ b)
  | _, _ => false

/-- numpy linear-interpolation percentile of a sorted nonempty list:
`rank = q/100 * (n-1)`, then interpolate between the neighbouring order
statistics (indices clipped to the valid range). -/
def percentileInterp (xs : List ℚ) (q : ℚ) : ℚ :=
  let n := xs.length
  let rank : ℚ := q * ((n : ℚ) - 1) / 100
  let i : ℤ := ⌊rank⌋
  let ilo : Nat := (max 0 (min i ((n : ℤ) - 1))).toNat
  let ihi : Nat := (max 0 (min (i + 1) ((n : ℤ) - 1))).toNat
  let g : ℚ := rank - (i : ℚ)
  xs.getD ilo 0 * (1 - g) + xs.getD ihi 0 * g

/-- Percentile of a bag of (valid, non-NaN) values; `none` when the bag is
empty (numpy returns NaN for an all-NaN row). -/
def percentileOfValues (vs : List ℚ) (q : ℚ) : Option ℚ :=
  if vs.isEmpty then none
  else some (percentileInterp (List.insertionSort (· ≤ ·) vs) q)

/-- Models `numpy.nanpercentile` (external library) applied to one row:
NaN entries are dropped, and the percentile is taken over the remaining
values. -/
def nanpercentileRow (row : List FloatVal) (q : ℚ) : Option ℚ :=
  percentileOfValues (row.filterMap id) q

/-- One row of `(lower_bounds <= data) & (data <= upper_bounds)`
(filter.py lines 199–211): the per-row bounds are the NaN-ignoring
percentiles of the row, and each entry is tested against them
inclusively. -/
def percentileBandRow (row : List FloatVal) (minp maxp : ℚ) : List Bool :=
  row.map (fun v =>
    nanLe (nanpercentileRow row minp) v && nanLe v (nanpercentileRow row maxp))

/-- `PercentileFilter.compute_from_arrays` (filter.py lines 185–211):
widen the factor array to float64 (a copy; values unchanged), overwrite
masked-out cells with NaN, then band-test each row against its NaN-ignoring
percentile bounds. -/
def PercentileFilter.compute_from_arrays (arrays : List FloatPanel)
    (mask : BoolPanel) (minp maxp : ℚ) : BoolPanel :=
  (maskNan (arrays.headD []) mask).map
    (fun row => percentileBandRow row minp maxp)

/-- The values of a row that survive the mask (masked-in, non-NaN): exactly
the data the percentile reduction is allowed to see. -/
def maskedValues (row : List FloatVal) (mrow : List Bool) : List ℚ :=
  (row.zip mrow).filterMap (fun p => if p.2 then p.1 else none)

theorem nanLe_none_right (x : FloatVal) : nanLe x none = false := by
  cases x <;> rfl

theorem maskNanRow_filterMap (row : List FloatVal) :
    ∀ mrow : List Bool,
      (maskNanRow row mrow).filterMap id = maskedValues row mrow := by
  induction row with
  | nil => intro mrow; cases mrow <;> rfl
  | cons v vs ih =>
    intro mrow
    cases mrow with
    | nil => rfl
    | cons m ms =>
      cases m <;> cases v <;>
        simpa [maskNanRow, maskedValues, List.filterMap_cons] using ih ms

/-- C3: `PercentileFilter` construction succeeds (returning the node) iff
`0 <= min_percentile < max_percentile <= 100`; for every pair of bounds
outside this region it fails with `BadPercentileBounds` reporting both
bounds; and `compute_from_arrays` unconditionally computes its formula for
all bounds, valid or not — the check lives only in construction-time
validation. -/
theorem percentileFilter_bounds_validation (factor : Atom) (minp maxp : ℚ) :
    (PercentileFilter.new factor minp maxp = .ok ⟨factor, minp, maxp⟩
        ↔ 0 ≤ minp ∧ minp < maxp ∧ maxp ≤ 100)
    ∧ (maxp ≤ minp ∨ minp < 0 ∨ 100 < maxp →
        PercentileFilter.new factor minp maxp = .error ⟨minp, maxp⟩)
    ∧ (∀ (arrays : List FloatPanel) (mask : BoolPanel),
        PercentileFilter.compute_from_arrays arrays mask minp maxp
          = (maskNan (arrays.headD []) mask).map
              (fun row => percentileBandRow row minp maxp)) := by
  have key : ∀ h : Prop, ∀ inst : Decidable h,
      (maxp ≤ minp ∨ minp < 0 ∨ 100 < maxp) →
      (h = (0 ≤ minp ∧ minp < maxp ∧ maxp ≤ 100)) → ¬ h := by
    intro h _ hbad heq
    subst heq
    rintro ⟨h1, h2, h3⟩
    rcases hbad with hb | hb | hb
    · exact absurd h2 (not_lt.mpr hb)
    · exact absurd h1 (not_le.mpr hb)
    · exact absurd h3 (not_le.mpr hb)
  refine ⟨?_, ?_, fun _ _ => rfl⟩
  · unfold PercentileFilter.new PercentileFilter.validate
    by_cases h : 0 ≤ minp ∧ minp < maxp ∧ maxp ≤ 100
    · simp [h, Except.map]
    · simp [h, Except.map]
  · intro hbad
    unfold PercentileFilter.new PercentileFilter.validate
    have hneg := key _ inferInstance hbad rfl
    simp [hneg, Except.map]

/-- Witness for C3: bounds (20, 80) construct successfully; bounds
(80, 20) fail with the error reporting both bounds. -/
theorem percentileFilter_bounds_validation_witness :
    PercentileFilter.new ⟨0⟩ 20 80 = .ok ⟨⟨0⟩, 20, 80⟩
    ∧ PercentileFilter.new ⟨0⟩ 80 20 = .error ⟨80, 20⟩ :=
  ⟨(percentileFilter_bounds_validation ⟨0⟩ 20 80).1.mpr (by decide),
   (percentileFilter_bounds_validation ⟨0⟩ 80 20).2.1 (Or.inl (by decide))⟩

/-- C4: `PercentileFilter.compute_from_arrays` NaN-overwrites masked-out
cells before any statistics are taken, so each row's percentile bounds are
computed from the masked-in valid values only; each entity's result is the
inclusive band test against those bounds; and every masked-out entity
yields false (its NaN compares false against both bounds). -/
theorem percentileFilter_mask_exclusion
    (factor : FloatPanel) (mask : BoolPanel) (minp maxp : ℚ) (r : Nat)
    (row : List FloatVal) (mrow : List Bool)
    (hrow : factor.get? r = some row) (hmask : mask.get? r = some mrow) :
    (∀ q, nanpercentileRow (maskNanRow row mrow) q
        = percentileOfValues (maskedValues row mrow) q)
    ∧ (PercentileFilter.compute_from_arrays [factor] mask minp maxp).get? r
        = some (percentileBandRow (maskNanRow row mrow) minp maxp)
    ∧ (∀ c, mrow.get? c = some false → c < row.length →
        (percentileBandRow (maskNanRow row mrow) minp maxp).get? c
          = some false) := by
  refine ⟨?_, ?_, ?_⟩
  · intro q
    unfold nanpercentileRow
    rw [maskNanRow_filterMap]
  · unfold PercentileFilter.compute_from_arrays
    have h2 : (maskNan factor mask).get? r = some (maskNanRow row mrow) :=
      get?_zipWith_some _ factor mask r row mrow hrow hmask
    rw [show ([factor] : List FloatPanel).headD [] = factor from rfl,
      List.get?_map, h2]
    rfl
  · intro c hc hlen
    obtain ⟨v, hv⟩ : ∃ v, row.get? c = some v := by
      cases hvv : row.get? c with
      | none => exact absurd (List.get?_eq_none.mp hvv) (not_le.mpr hlen)
      | some v => exact ⟨v, rfl⟩
    have hm : (maskNanRow row mrow).get? c = some none := by
      simpa [maskNanRow] using
        get?_zipWith_some (fun v m => if m then v else none) row mrow c v
          false hv hc
    unfold percentileBandRow
    rw [List.get?_map, hm]
    simp [nanLe_none_right]

/-- Witness for C4 at a concrete input: with values `[1, 2]` and mask
`[true, false]`, the row result is the band test of the NaN-masked row,
and the masked-out column 1 comes out false. -/
theorem percentileFilter_mask_exclusion_witness :
    (PercentileFilter.compute_from_arrays [[[some 1, some 2]]]
        [[true, false]] 0 100).get? 0
      = some (percentileBandRow (maskNanRow [some 1, some 2] [true, false])
          0 100)
    ∧ (percentileBandRow (maskNanRow [some 1, some 2] [true, false])
        0 100).get? 1 = some false :=
  ⟨(percentileFilter_mask_exclusion [[some 1, some 2]] [[true, false]]
      0 100 0 [some 1, some 2] [true, false] rfl rfl).2.1,
   (percentileFilter_mask_exclusion [[some 1, some 2]] [[true, false]]
      0 100 0 [some 1, some 2] [true, false] rfl rfl).2.2 1 rfl
     (by decide)⟩

/-- A Filter node as seen by the operator dispatch: either a
`NumExprFilter` (which is also a NumericalExpression, holding an
expression string over positional placeholders and its ordered bound
inputs) or a plain Filter term (identified by its interned atom, since
Terms with equal identity are the same instance). -/
inductive FilterNode where
  | numExpr (expr : String) (binds : List Atom)
  | prim (a : Atom)
deriving DecidableEq

/-- The right-hand operand of a binary operator on a Filter, tagged by the
runtime type tests the dispatch performs: a Filter node, an integral
scalar, a boolean scalar (Python `bool` is an `int`), or anything else. -/
inductive Operand where
  | filt (f : FilterNode)
  | intConst (k : Int)
  | boolConst (b : Bool)
  | otherVal (tyName : String)
deriving DecidableEq

/-- The `BadBinaryOperator` error (zipline.modelling.expression),
identifying the operator and both operands. -/
structure BadBinaryOperator where
  op : String
  left : FilterNode
  right : Operand
deriving DecidableEq

def digitsToNat (ds : List Char) : Nat :=
  ds.foldl (fun n c => n * 10 + (c.toNat - '0'.toNat)) 0

/-- Rewrite every positional placeholder `x_<n>` occurring in a character
stream to `x_<f n>` (fuel-indexed recursion; the fuel is the stream
length, and at least one character is consumed per step). -/
def renumberVarsAux (f : Nat → Nat) : Nat → List Char → List Char
  | 0, _ => []
  | _ + 1, [] => []
  | fuel + 1, 'x' :: '_' :: rest =>
      let ds := rest.takeWhile Char.isDigit
      if ds.isEmpty then
        'x' :: '_' :: renumberVarsAux f fuel rest
      else
        'x' :: '_' :: ((toString (f (digitsToNat ds))).toList
          ++ renumberVarsAux f fuel (rest.dropWhile Char.isDigit))
  | fuel + 1, c :: rest => c :: renumberVarsAux f fuel rest

/-- Rewrite every placeholder `x_<n>` in an expression string to
`x_<f n>`. -/
def renumberVars (f : Nat → Nat) (s : String) : String :=
  String.mk (renumberVarsAux f s.length s.toList)

/-- Index of an atom in a bind list. -/
def atomIndex (xs : List Atom) (a : Atom) : Nat :=
  xs.findIdx (fun x => decide (x = a))

/-- Modelled from the spec: `NumericalExpression.build_binary_op`
(zipline.modelling.expression, not under src/).  Per spec §6 it returns
`(self_expr, other_expr, new_inputs)`: inputs of `other` already present
in `self`'s bind list are reused rather than duplicated, `other`'s
positional placeholders are renumbered to the merged index space, and an
integral/boolean operand contributes its integer literal; an unsupported
operand fails (`none`, surfaced as `BadBinaryOperator` by the caller). -/
def build_binary_op (e : String) (binds : List Atom) (other : Operand) :
    Option (String × String × List Atom) :=
  match other with
  | .filt (.numExpr fe fb) =>
      let merged := binds ++ fb.filter (fun x => decide (¬ x ∈ binds))
      some (e, renumberVars (fun i =>
        match fb.get? i with
        | some x => atomIndex merged x
        | none => i) fe, merged)
  | .filt (.prim a) =>
      if a ∈ binds then
        some (e, "x_" ++ toString (atomIndex binds a), binds)
      else
        some (e, "x_" ++ toString binds.length, binds ++ [a])
  | .intConst k => some (e, toString k, binds)
  | .boolConst b => some (e, toString (if b then (1 : Int) else 0), binds)
  | .otherVal _ => none

/-- The `binary_operator` dispatch (filter.py lines 36–82), specialised to
a left operand that is a Filter.  Case order follows the source: left is a
NumericalExpression; right is a NumericalExpression (re-dispatched through
the commuted operator method so the expression-merging logic runs with the
expression on the left, per spec §4.1 rule 2); right is a Filter (with the
`self is other` shared-instance check); right is an integral or boolean
scalar; otherwise `BadBinaryOperator`. -/
def binary_operator (op : String) (self : FilterNode) (other : Operand) :
    Except BadBinaryOperator FilterNode :=
  match self, other with
  | .numExpr e binds, _ =>
      match build_binary_op e binds other with
      | some (se, oe, merged) =>
          .ok (.numExpr ("(" ++ se ++ ") " ++ op ++ " (" ++ oe ++ ")") merged)
      | none => .error ⟨op, self, other⟩
  | .prim a, .filt (.numExpr fe fb) =>
      match build_binary_op fe fb (.filt (.prim a)) with
      | some (se, oe, merged) =>
          .ok (.numExpr ("(" ++ se ++ ") " ++ op ++ " (" ++ oe ++ ")") merged)
      | none => .error ⟨op, self, other⟩
  | .prim a, .filt (.prim b) =>
      if a = b then .ok (.numExpr ("x_0 " ++ op ++ " x_0") [a])
      else .ok (.numExpr ("x_0 " ++ op ++ " x_1") [a, b])
  | .prim a, .intConst k =>
      .ok (.numExpr ("x_0 " ++ op ++ " (" ++ toString k ++ ")") [a])
  | .prim a, .boolConst b =>
      .ok (.numExpr ("x_0 " ++ op ++ " ("
        ++ toString (if b then (1 : Int) else 0) ++ ")") [a])
  | .prim _, .otherVal _ => .error ⟨op, self, other⟩

deriving instance DecidableEq for Except

/-- C5 counterexample: a `NumExprFilter` combined with itself takes the
NumericalExpression branch of the dispatch, which always parenthesizes,
so the produced expression is `(x_0) & (x_0)`, not the literal form
`x_0 & x_0` the claim asserts for every Filter. -/
theorem numExpr_selfop_counterexample :
    binary_operator "&" (.numExpr "x_0" [⟨0⟩]) (.filt (.numExpr "x_0" [⟨0⟩]))
      = .ok (.numExpr "(x_0) & (x_0)" [⟨0⟩])
    ∧ "(x_0) & (x_0)" ≠ "x_0 & x_0" := by
  exact ⟨by decide, by decide⟩

/-- C5 (amended): for every plain Filter node `a` (not
NumericalExpression-backed) and operator, combining `a` with itself
produces a `NumExprFilter` with the literal expression `x_0 <op> x_0` and
exactly one bound input, the shared node. -/
theorem filter_selfop_amended (op : String) (a : Atom) :
    binary_operator op (.prim a) (.filt (.prim a))
      = .ok (.numExpr ("x_0 " ++ op ++ " x_0") [a]) := by
  simp [binary_operator]

/-- C6 counterexample: a `NumExprFilter` combined with a distinct plain
Filter takes the NumericalExpression branch, producing the parenthesized
`(x_0) & (x_1)` over the merged bind list, not the literal form
`x_0 & x_1` the claim asserts for all distinct Filters. -/
theorem numExpr_distinct_counterexample :
    FilterNode.numExpr "x_0" [⟨0⟩] ≠ FilterNode.prim ⟨1⟩
    ∧ binary_operator "&" (.numExpr "x_0" [⟨0⟩]) (.filt (.prim ⟨1⟩))
      = .ok (.numExpr "(x_0) & (x_1)" [⟨0⟩, ⟨1⟩])
    ∧ "(x_0) & (x_1)" ≠ "x_0 & x_1" := by
  exact ⟨by decide, by decide, by decide⟩

/-- C6 (amended): for all distinct plain Filter nodes `a ≠ b` (neither
NumericalExpression-backed), `a <op> b` produces a `NumExprFilter` with
exactly two bound inputs in order `(a, b)` and the literal expression
`x_0 <op> x_1`. -/
theorem filter_distinct_amended (op : String) (a b : Atom) (h : a ≠ b) :
    binary_operator op (.prim a) (.filt (.prim b))
      = .ok (.numExpr ("x_0 " ++ op ++ " x_1") [a, b]) := by
  simp [binary_operator, h]

/-- Witness for the amended C6 at concrete distinct nodes. -/
theorem filter_distinct_amended_witness :
    binary_operator "&" (.prim ⟨0⟩) (.filt (.prim ⟨1⟩))
      = .ok (.numExpr "x_0 & x_1" [⟨0⟩, ⟨1⟩]) :=
  (filter_distinct_amended "&" ⟨0⟩ ⟨1⟩ (by decide)).trans (by decide)

/-- C7: for every plain Filter `a` and integral scalar `k`,
`a <op> k` produces a `NumExprFilter` with exactly one bound input and the
expression `x_0 <op> (<k>)` embedding `k`'s integer literal; a boolean
scalar behaves exactly as its integer value (`a & True` = `a & 1`). -/
theorem filter_constant_op (op : String) (a : Atom) (k : Int) :
    binary_operator op (.prim a) (.intConst k)
      = .ok (.numExpr ("x_0 " ++ op ++ " (" ++ toString k ++ ")") [a])
    ∧ (∀ bv : Bool, binary_operator op (.prim a) (.boolConst bv)
        = binary_operator op (.prim a) (.intConst (if bv then 1 else 0))) := by
  refine ⟨rfl, fun bv => ?_⟩
  cases bv <;> rfl

/-- `concat_tuples` (filter.py lines 29–33): concatenate a sequence of
tuples into one tuple (`tuple(chain(*tuples))`). -/
def concat_tuples (tuples : List (List α)) : List α :=
  tuples.join

/-- A Python value passed to `SequencedFilter(first, then)`: a Filter term
(with its interned identity and its own input list), a Term that is not a
Filter (e.g. a Factor: it has an `inputs` attribute but fails the
`isinstance(_, Filter)` test), or a non-Term object (no `inputs`
attribute), carrying its type name for error messages. -/
inductive PyVal where
  | filterTerm (a : Atom) (inputs : List Atom)
  | nonFilterTerm (tyName : String) (inputs : List Atom)
  | nonTerm (tyName : String)
deriving DecidableEq

/-- Attribute access `v.inputs`: non-Terms raise an attribute error. -/
def PyVal.inputsAttr : PyVal → Except String (List Atom)
  | .filterTerm _ ins => .ok ins
  | .nonFilterTerm _ ins => .ok ins
  | .nonTerm ty => .error (ty ++ " object has no attribute inputs")

/-- `type(v).__name__`, as used in the validation error message. -/
def PyVal.typeName : PyVal → String
  | .filterTerm _ _ => "Filter"
  | .nonFilterTerm ty _ => ty
  | .nonTerm ty => ty

/-- `isinstance(v, Filter)`. -/
def PyVal.isFilter : PyVal → Bool
  | .filterTerm _ _ => true
  | _ => false

/-- Whether `v` is a Term (has an `inputs` attribute). -/
def PyVal.isTerm : PyVal → Bool
  | .nonTerm _ => false
  | _ => true

/-- `SequencedFilter` construction (filter.py lines 236–256).
`__new__` evaluates `then.inputs` while building the inputs tuple (line
239) — for a non-Term this raises an attribute error before anything
else — and the Term contract (external, spec §6) then runs `_validate`
during construction, which checks `first` and then `then` with
`isinstance(_, Filter)` and raises `TypeError("Expected Filter, got
<type>")` for the first offender; an error aborts construction. -/
def SequencedFilter.construct (first thenv : PyVal) : Except String Unit :=
  match thenv.inputsAttr with
  | .error e => .error e
  | .ok _ =>
      if ¬ first.isFilter then
        .error ("Expected Filter, got " ++ first.typeName)
      else if ¬ thenv.isFilter then
        .error ("Expected Filter, got " ++ thenv.typeName)
      else
        .ok ()

/-- The inputs tuple of a well-formed `SequencedFilter` (filter.py line
239): `concat_tuples((first,), then.inputs)`. -/
def SequencedFilter.inputsOf (first : Atom) (thenInputs : List Atom) :
    List Atom :=
  concat_tuples [[first], thenInputs]

/-- C8 counterexample: constructing a `SequencedFilter` whose `then` is an
`int` (not a Term) fails while evaluating `then.inputs` on line 239, with
an attribute error, not with the claimed
`TypeError("Expected Filter, got int")`. -/
theorem sequenced_nonterm_counterexample :
    SequencedFilter.construct (.filterTerm ⟨0⟩ []) (.nonTerm "int")
      = .error "int object has no attribute inputs"
    ∧ SequencedFilter.construct (.filterTerm ⟨0⟩ []) (.nonTerm "int")
      ≠ .error "Expected Filter, got int" := by
  exact ⟨by decide, by decide⟩

/-- C8 (amended): construction succeeds iff both arguments are Filters.
If `then` is not a Term at all, construction fails with an attribute error
while computing the inputs tuple, before validation.  Otherwise a
non-Filter operand fails validation with a type error of the form
`Expected Filter, got <actual type>` naming the offending value's type
(`first` is checked first); the failure aborts construction, so no node is
produced. -/
theorem sequenced_validation_amended (first thenv : PyVal) :
    (SequencedFilter.construct first thenv = .ok ()
        ↔ first.isFilter = true ∧ thenv.isFilter = true)
    ∧ (∀ ty, thenv = .nonTerm ty →
        SequencedFilter.construct first thenv
          = .error (ty ++ " object has no attribute inputs"))
    ∧ (thenv.isTerm = true → first.isFilter = false →
        SequencedFilter.construct first thenv
          = .error ("Expected Filter, got " ++ first.typeName))
    ∧ (thenv.isTerm = true → thenv.isFilter = false →
        first.isFilter = true →
        SequencedFilter.construct first thenv
          = .error ("Expected Filter, got " ++ thenv.typeName)) := by
  cases first <;> cases thenv <;>
    simp [SequencedFilter.construct, PyVal.inputsAttr, PyVal.typeName,
      PyVal.isFilter, PyVal.isTerm]

/-- Witness for the amended C8 at concrete inputs: two Filters construct;
a non-Filter Term in either position yields the type error naming its
type. -/
theorem sequenced_validation_amended_witness :
    SequencedFilter.construct (.filterTerm ⟨0⟩ []) (.filterTerm ⟨1⟩ [])
      = .ok ()
    ∧ SequencedFilter.construct (.nonFilterTerm "Factor" [])
        (.filterTerm ⟨1⟩ []) = .error "Expected Filter, got Factor"
    ∧ SequencedFilter.construct (.filterTerm ⟨0⟩ [])
        (.nonFilterTerm "Factor" []) = .error "Expected Filter, got Factor" :=
  ⟨(sequenced_validation_amended (.filterTerm ⟨0⟩ [])
      (.filterTerm ⟨1⟩ [])).1.mpr ⟨rfl, rfl⟩,
   ((sequenced_validation_amended (.nonFilterTerm "Factor" [])
      (.filterTerm ⟨1⟩ [])).2.2.1 rfl rfl).trans (by decide),
   ((sequenced_validation_amended (.filterTerm ⟨0⟩ [])
      (.nonFilterTerm "Factor" [])).2.2.2 rfl rfl rfl).trans (by decide)⟩

/-- C9: the inputs tuple of a `SequencedFilter` is exactly `(first,)`
concatenated with `then.inputs` — the first filter followed by the second
filter's own inputs in their original order, with no deduplication (this
holds in particular when `first` itself occurs among `then.inputs`). -/
theorem sequenced_inputs_concat (first : Atom) (thenInputs : List Atom) :
    SequencedFilter.inputsOf first thenInputs = first :: thenInputs
    ∧ (SequencedFilter.inputsOf first thenInputs).length
        = thenInputs.length + 1
    ∧ ∀ i, (SequencedFilter.inputsOf first thenInputs).get? (i + 1)
        = thenInputs.get? i := by
  have h : SequencedFilter.inputsOf first thenInputs = first :: thenInputs := by
    simp [SequencedFilter.inputsOf, concat_tuples]
  exact ⟨h, by rw [h]; simp, fun i => by rw [h]; simp⟩

/-- Project a float64 array out of a heap slot. -/
def unFPanel : NpArr → FloatPanel
  | .fPanel q => q
  | .bPanel _ => []

/-- Project a boolean array out of a heap slot. -/
def unBPanel : NpArr → BoolPanel
  | .bPanel b => b
  | .fPanel _ => []

/-- Heap-level `PercentileFilter.compute_from_arrays` (filter.py lines
185–211), with the materialized arrays living in an explicit store
addressed by index: `arrays[0].astype(float64)` allocates a fresh copy of
the factor array, `data[~mask.values] = nan` writes into that fresh copy
only, and the result is a new boolean array.  Returns the result together
with the store afterwards (the fresh array is appended; nothing else is
touched). -/
def PercentileFilter.compute_from_arrays_heap (heap : List NpArr)
    (factorId maskId : Nat) (minp maxp : ℚ) : BoolPanel × List NpArr :=
  let src := unFPanel (heap.getD factorId (.fPanel []))
  let mask := unBPanel (heap.getD maskId (.bPanel []))
  let data := maskNan src mask
  (data.map (fun row => percentileBandRow row minp maxp),
   heap ++ [.fPanel data])

/-- C10: `PercentileFilter.compute_from_arrays` leaves every pre-existing
array — the caller's factor array and mask included — untouched (its NaN
sentinels go only into the freshly allocated float64 copy), and its result
is a pure function of the referenced array contents, the mask and the
bounds, so identical invocations return identical boolean output. -/
theorem percentile_compute_pure_frame (heap : List NpArr)
    (factorId maskId : Nat) (minp maxp : ℚ) :
    (∀ i, i < heap.length →
      ((PercentileFilter.compute_from_arrays_heap heap factorId maskId
          minp maxp).2).get? i = heap.get? i)
    ∧ (PercentileFilter.compute_from_arrays_heap heap factorId maskId
        minp maxp).1
      = PercentileFilter.compute_from_arrays
          [unFPanel (heap.getD factorId (.fPanel []))]
          (unBPanel (heap.getD maskId (.bPanel []))) minp maxp := by
  constructor
  · intro i hi
    show (heap ++ [_]).get? i = heap.get? i
    exact List.get?_append hi
  · rfl

/-- Witness for C10 at a concrete input: after computing over a store
holding a factor array and a mask, both original slots are unchanged. -/
theorem percentile_compute_pure_frame_witness :
    ((PercentileFilter.compute_from_arrays_heap
        [.fPanel [[some 1]], .bPanel [[true]]] 0 1 20 80).2).get? 0
      = some (.fPanel [[some 1]])
    ∧ ((PercentileFilter.compute_from_arrays_heap
        [.fPanel [[some 1]], .bPanel [[true]]] 0 1 20 80).2).get? 1
      = some (.bPanel [[true]]) :=
  ⟨((percentile_compute_pure_frame [.fPanel [[some 1]], .bPanel [[true]]]
      0 1 20 80).1 0 (by decide)).trans rfl,
   ((percentile_compute_pure_frame [.fPanel [[some 1]], .bPanel [[true]]]
      0 1 20 80).1 1 (by decide)).trans rfl⟩
